import Mathlib

/-!
Shallow embedding of `src/crates/uv-auth/src/middleware.rs` (the `uv` auth
middleware): the request-handling state machine (`handle`), request
completion (`complete_request`, `complete_request_with_request_credentials`)
and provider fetching (`fetch_credentials`).

External collaborators of the middleware (the credentials cache lookups, the
index registry, the netrc file, the keyring, the HTTP client) are modelled as
oracle functions in an environment record; the middleware's own control flow
is translated statement by statement from the source.  Every observable
action of the middleware (HTTP sends, cache lookups, cache inserts, provider
calls, request cloning) is recorded in an event trace.
-/

namespace UvAuth

/-- URLs are opaque keys for the middleware; we model them as strings. -/
abbrev Url := String

/-- A realm (scheme, host, port); opaque to the middleware, derived from a
URL by the external `Realm::from`, which we model as an oracle. -/
abbrev RealmKey := String

/-- `AuthPolicy` from `index.rs` (external enum, used by the middleware). -/
inductive AuthPolicy where
  | auto
  | always
  | never
  deriving DecidableEq, Repr

/-- `Credentials::Basic { username: Username, password: Option<Password> }`.
`Username` wraps an `Option<String>`. -/
structure Credentials where
  username : Option String
  password : Option String
  deriving DecidableEq, Repr

/-- A prepared HTTP request as the middleware sees it: its URL, the
credentials encoded in its `Authorization` header (userinfo has already been
moved off the URL by the caller), and whether `try_clone` succeeds. -/
structure Request where
  url : Url
  headerCreds : Option Credentials
  cloneable : Bool
  deriving DecidableEq, Repr

/-- `FetchUrl` from `cache.rs`: the single-flight key half. -/
inductive FetchUrl where
  | index (url : Url)
  | realm (r : RealmKey)
  deriving DecidableEq, Repr

/-- Single-flight key `(FetchUrl, Username)`. -/
abbrev FetchKey := FetchUrl × Option String

/-- Observable actions of the middleware, in program order. -/
inductive Event where
  | httpSend (r : Request)
  | cacheInsert (url : Url) (c : Credentials)
  | cacheGetUrl (url : Url) (user : Option String)
  | cacheGetRealm (r : RealmKey) (user : Option String)
  | fetchStart (url : Url) (user : Option String)
  | fetchWait (key : FetchKey)
  | hfCheck (url : Url)
  | netrcCheck (url : Url) (user : Option String)
  | keyringFetch (service : Url) (user : Option String)
  | cloneAttempt
  deriving DecidableEq, Repr

/-- Middleware-level errors surfaced to the caller. -/
inductive MwError where
  | missingCredentials
  | missingPassword
  | notCloneable
  | transport
  deriving DecidableEq, Repr

/-- The result of `handle`: a response status or an error. -/
inductive Outcome where
  | ok (status : Nat)
  | err (e : MwError)
  deriving DecidableEq, Repr

/-- The middleware's external collaborators, as oracles, plus its
configuration flags. -/
structure Env where
  onlyAuthenticated : Bool
  /-- `Indexes::index_url_for` (index registry, external). -/
  indexUrlFor : Url → Option Url
  /-- `Indexes::auth_policy_for` (index registry, external). -/
  authPolicyFor : Url → AuthPolicy
  /-- `Realm::from` (external). -/
  realmOf : Url → RealmKey
  /-- `CredentialsCache::get_url` (external). -/
  getUrl : Url → Option String → Option Credentials
  /-- `CredentialsCache::get_realm` (external). -/
  getRealm : RealmKey → Option String → Option Credentials
  /-- `HuggingFaceProvider::credentials_for` (external, pure). -/
  hf : Url → Option Credentials
  /-- `NetrcMode::get` plus `Credentials::from_netrc`: `none` when netrc is
  disabled or absent. -/
  netrc : Option (Url → Option String → Option Credentials)
  /-- `KeyringProvider::fetch`: `none` when no keyring is configured. -/
  keyring : Option (Url → Option String → Option Credentials)
  /-- The wrapped HTTP client: for the n-th send of this request, a
  transport error or a response status. -/
  http : Nat → Except Unit Nat
  /-- State of the single-flight `fetches` map: `none` means the key is
  unregistered (the caller becomes the elected fetcher); `some r` means a
  previous fetch completed with result `r` and `wait` returns it. -/
  fetchSlot : FetchKey → Option (Option Credentials)

/-- Running state threaded through a `handle` call: how many sends have
happened and the event trace so far. -/
structure St where
  sends : Nat
  events : List Event
  deriving DecidableEq, Repr

/-- The initial state. -/
def St0 : St := ⟨0, []⟩

/-- Append an event to the trace. -/
def push (st : St) (e : Event) : St :=
  { st with events := st.events ++ [e] }

/-- `next.run(request)`: consult the HTTP oracle and record the send. -/
def nextRun (env : Env) (st : St) (r : Request) : Except Unit Nat × St :=
  (env.http st.sends, ⟨st.sends + 1, st.events ++ [Event.httpSend r]⟩)

/-- `credentials.authenticate(request)`: set the `Authorization` header from
the credentials (and clear URL userinfo, which our URLs do not carry). -/
def authenticate (c : Credentials) (r : Request) : Request :=
  { r with headerCreds := some c }

/-- `response.error_for_status_ref().is_ok()`: true unless the status is a
client error (400-499) or server error (500-599). -/
def statusOk (s : Nat) : Bool :=
  !(400 ≤ s && s ≤ 599)

/-- The username half of the single-flight key (`middleware.rs:475`):
`Username::from(credentials.map(|c| c.username().unwrap_or_default()))` —
a credential with no username maps to the empty string. -/
def fetchKeyUsername (credentials : Option Credentials) : Option String :=
  credentials.map (fun c => c.username.getD "")

/-- `AuthMiddleware::fetch_credentials` (`middleware.rs:468-571`): look up or
register the single-flight slot, then consult the known providers, netrc,
and the keyring in order. -/
def fetch_credentials (env : Env) (st : St) (credentials : Option Credentials)
    (url : Url) (maybeIndexUrl : Option Url) (authPolicy : AuthPolicy) :
    Option Credentials × St :=
  let username := fetchKeyUsername credentials
  let st := push st (Event.fetchStart url username)
  let key : FetchKey :=
    match maybeIndexUrl with
    | some indexUrl => (FetchUrl.index indexUrl, username)
    | none => (FetchUrl.realm (env.realmOf url), username)
  match env.fetchSlot key with
  | some result =>
    -- `register` returned false: wait for the previous fetch's result.
    (result, push st (Event.fetchWait key))
  | none =>
    -- We are the elected fetcher.  Known providers first.
    let st := push st (Event.hfCheck url)
    match env.hf url with
    | some c => (some c, st)
    | none =>
      let requestUsername := credentials.bind (fun c => c.username)
      let st :=
        match env.netrc with
        | some _ => push st (Event.netrcCheck url requestUsername)
        | none => st
      let netrcRes :=
        match env.netrc with
        | some f => f url requestUsername
        | none => none
      match netrcRes with
      | some c => (some c, st)
      | none =>
        match env.keyring with
        | none => (none, st)
        | some kr =>
          match requestUsername with
          | some u =>
            match maybeIndexUrl with
            | some i =>
              (kr i (some u), push st (Event.keyringFetch i (some u)))
            | none =>
              (kr url (some u), push st (Event.keyringFetch url (some u)))
          | none =>
            if authPolicy = AuthPolicy.always then
              match maybeIndexUrl with
              | some i => (kr i none, push st (Event.keyringFetch i none))
              | none => (none, st)
            else
              (none, st)

/-- `AuthMiddleware::complete_request` (`middleware.rs:355-383`): send the
request; on a non-error status, insert the carried credentials into the
cache; under policy `Always` a password-less credential fails with
`MissingPassword` before sending. -/
def complete_request (env : Env) (st : St) (credentials : Option Credentials)
    (request : Request) (authPolicy : AuthPolicy) : Outcome × St :=
  match credentials with
  | none =>
    let r := nextRun env st request
    match r.fst with
    | Except.ok s => (Outcome.ok s, r.snd)
    | Except.error _ => (Outcome.err MwError.transport, r.snd)
  | some creds =>
    if authPolicy = AuthPolicy.always && creds.password.isNone then
      (Outcome.err MwError.missingPassword, st)
    else
      let r := nextRun env st request
      match r.fst with
      | Except.ok s =>
        if statusOk s then
          (Outcome.ok s, push r.snd (Event.cacheInsert request.url creds))
        else
          (Outcome.ok s, r.snd)
      | Except.error _ => (Outcome.err MwError.transport, r.snd)

/-- `AuthMiddleware::complete_request_with_request_credentials`
(`middleware.rs:386-463`): the username-only path; look for a password in
the index/realm cache, the request-URL cache, the providers, and (for a
known index) the realm cache, in that order. -/
def complete_request_with_request_credentials (env : Env) (st : St)
    (credentials : Credentials) (request : Request) (indexUrl : Option Url)
    (authPolicy : AuthPolicy) : Outcome × St :=
  if credentials.password.isSome then
    complete_request env st (some credentials) request authPolicy
  else
    let lookupRes :=
      match indexUrl with
      | some i =>
        (env.getUrl i credentials.username,
         push st (Event.cacheGetUrl i credentials.username))
      | none =>
        let r := env.realmOf request.url
        (env.getRealm r credentials.username,
         push st (Event.cacheGetRealm r credentials.username))
    let st := lookupRes.snd
    match lookupRes.fst with
    | some cached =>
      -- Do not insert already-cached credentials
      complete_request env st none (authenticate cached request) authPolicy
    | none =>
      let st := push st (Event.cacheGetUrl request.url credentials.username)
      match env.getUrl request.url credentials.username with
      | some cached =>
        -- Do not insert already-cached credentials
        complete_request env st none (authenticate cached request) authPolicy
      | none =>
        let fr := fetch_credentials env st (some credentials) request.url indexUrl authPolicy
        let st := fr.snd
        match fr.fst with
        | some fetched =>
          complete_request env st (some fetched) (authenticate fetched request) authPolicy
        | none =>
          match indexUrl with
          | some _ =>
            -- If this is a known index, we fall back to checking for the realm.
            let r := env.realmOf request.url
            let st := push st (Event.cacheGetRealm r credentials.username)
            match env.getRealm r credentials.username with
            | some realmCached =>
              complete_request env st (some realmCached)
                (authenticate realmCached request) authPolicy
            | none =>
              complete_request env st (some credentials) request authPolicy
          | none =>
            complete_request env st (some credentials) request authPolicy

/-- The tail of `Middleware::handle` after the probe decision
(`middleware.rs:278-348`): search the index/realm cache, then the providers,
then retry with a bare username, else return the retained probe response or
fail with `MissingCredentials`. -/
def handleTail2 (env : Env) (st : St) (retryRequest : Request)
    (credentials : Option Credentials) (maybeIndexUrl : Option Url)
    (authPolicy : AuthPolicy) (attemptHasUsername : Bool)
    (response : Option Nat) : Outcome × St :=
  let username := credentials.bind (fun c => c.username)
  let realm := env.realmOf retryRequest.url
  let lookupRes :=
    match maybeIndexUrl with
    | some i =>
      let st := push st (Event.cacheGetUrl i username)
      match env.getUrl i username with
      | some c => (some c, st)
      | none =>
        let st := push st (Event.cacheGetRealm realm username)
        (env.getRealm realm username, st)
    | none =>
      let st := push st (Event.cacheGetRealm realm username)
      (env.getRealm realm username, st)
  let st := lookupRes.snd
  let credentials := lookupRes.fst <|> credentials
  let afterFetch : St → Outcome × St := fun st =>
    let fr := fetch_credentials env st credentials retryRequest.url maybeIndexUrl authPolicy
    let st := fr.snd
    match fr.fst with
    | some fetched =>
      complete_request env st (some fetched) (authenticate fetched retryRequest) authPolicy
    | none =>
      match credentials with
      | some c =>
        if !attemptHasUsername then
          complete_request env st none (authenticate c retryRequest) authPolicy
        else
          match response with
          | some s => (Outcome.ok s, st)
          | none => (Outcome.err MwError.missingCredentials, st)
      | none =>
        match response with
        | some s => (Outcome.ok s, st)
        | none => (Outcome.err MwError.missingCredentials, st)
  match credentials with
  | some c =>
    if c.password.isSome then
      complete_request env st none (authenticate c retryRequest) authPolicy
    else
      afterFetch st
  | none => afterFetch st

/-- The probe phase of `Middleware::handle` (`middleware.rs:230-277`): when
probes are allowed, clone the request (failing with `NotCloneable`), send it,
and return any response whose status is not 401/403/404 — or any response at
all under policy `Never`. -/
def handleTail (env : Env) (st : St) (request : Request)
    (credentials : Option Credentials) (maybeIndexUrl : Option Url)
    (authPolicy : AuthPolicy) : Outcome × St :=
  let attemptHasUsername :=
    match credentials with
    | some c => c.username.isSome
    | none => false
  let retryUnauthenticated :=
    !env.onlyAuthenticated && !(authPolicy = AuthPolicy.always)
  if retryUnauthenticated then
    let st := push st Event.cloneAttempt
    if !request.cloneable then
      (Outcome.err MwError.notCloneable, st)
    else
      let r := nextRun env st request
      match r.fst with
      | Except.error _ => (Outcome.err MwError.transport, r.snd)
      | Except.ok s =>
        if !(s = 401 || s = 403 || s = 404) || authPolicy = AuthPolicy.never then
          (Outcome.ok s, r.snd)
        else
          handleTail2 env r.snd request credentials maybeIndexUrl authPolicy
            attemptHasUsername (some s)
  else
    handleTail2 env st request credentials maybeIndexUrl authPolicy
      attemptHasUsername none

/-- `Middleware::handle` for `AuthMiddleware` (`middleware.rs:174-348`). -/
def handle (env : Env) (st : St) (request : Request) : Outcome × St :=
  let requestCredentials := request.headerCreds
  let maybeIndexUrl := env.indexUrlFor request.url
  let authPolicy := env.authPolicyFor request.url
  if authPolicy = AuthPolicy.never then
    handleTail env st request none maybeIndexUrl authPolicy
  else
    match requestCredentials with
    | some rc =>
      complete_request_with_request_credentials env st rc request maybeIndexUrl authPolicy
    | none =>
      let st := push st (Event.cacheGetUrl request.url none)
      match env.getUrl request.url none with
      | some c =>
        let request := authenticate c request
        if c.password.isSome then
          complete_request env st none request authPolicy
        else
          handleTail env st request (some c) maybeIndexUrl authPolicy
      | none =>
        handleTail env st request none maybeIndexUrl authPolicy

/-! ## Helper lemmas about the embedded functions -/

/-- Events that the provider-fetch phase can record. -/
def fetchPhaseEvent : Event → Bool
  | .fetchStart _ _ => true
  | .fetchWait _ => true
  | .hfCheck _ => true
  | .netrcCheck _ _ => true
  | .keyringFetch _ _ => true
  | _ => false

theorem fetch_credentials_events_kind (env : Env) (st : St) (c : Option Credentials)
    (u : Url) (i : Option Url) (p : AuthPolicy) (e : Event)
    (h : e ∈ (fetch_credentials env st c u i p).snd.events) :
    e ∈ st.events ∨ fetchPhaseEvent e = true := by
  unfold fetch_credentials at h
  simp only [push] at h
  repeat' split at h
  all_goals
    simp only [List.mem_append, List.mem_cons, List.not_mem_nil, or_false] at h
  all_goals casesm* _ ∨ _
  all_goals subst_vars
  all_goals simp_all [fetchPhaseEvent]

theorem fetch_credentials_sends (env : Env) (st : St) (c : Option Credentials)
    (u : Url) (i : Option Url) (p : AuthPolicy) :
    (fetch_credentials env st c u i p).snd.sends = st.sends := by
  unfold fetch_credentials
  simp only [push]
  repeat' split
  all_goals rfl

/-- When every provider is empty and no previous fetch stored credentials,
`fetch_credentials` returns nothing. -/
theorem fetch_credentials_none (env : Env) (st : St) (c : Option Credentials)
    (u : Url) (i : Option Url) (p : AuthPolicy)
    (hhf : ∀ v, env.hf v = none)
    (hn : ∀ f, env.netrc = some f → ∀ v w, f v w = none)
    (hk : ∀ k, env.keyring = some k → ∀ v w, k v w = none)
    (hs : ∀ key, env.fetchSlot key = none ∨ env.fetchSlot key = some none) :
    (fetch_credentials env st c u i p).fst = none := by
  have hs' : ∀ key r, env.fetchSlot key = some r → r = none := by
    intro key r hkr
    rcases hs key with h | h <;> simp_all
  unfold fetch_credentials
  simp only [push]
  repeat' split
  all_goals simp_all
  all_goals exact hs' _ _ _ (by assumption)

/-- The insert performed by `complete_request`, fully characterized: a
credential is inserted exactly when credentials were carried, the
`MissingPassword` guard did not fire, and the response status was not a
client or server error. -/
theorem complete_request_insert_iff (env : Env) (st : St)
    (creds : Option Credentials) (req : Request) (p : AuthPolicy)
    (u : Url) (c : Credentials) :
    Event.cacheInsert u c ∈ (complete_request env st creds req p).snd.events ↔
      (Event.cacheInsert u c ∈ st.events ∨
        (creds = some c ∧ u = req.url ∧
         ¬(p = AuthPolicy.always ∧ c.password = none) ∧
         ∃ s, env.http st.sends = Except.ok s ∧ statusOk s = true)) := by
  rcases creds with _ | c0
  · cases henv : env.http st.sends <;>
      simp [complete_request, nextRun, push, henv]
  · by_cases hmp : (p = AuthPolicy.always && c0.password.isNone) = true
    · have hmp' : p = AuthPolicy.always ∧ c0.password = none := by
        simpa [Option.isNone_iff_eq_none] using hmp
      simp only [complete_request, hmp, if_true]
      constructor
      · exact Or.inl
      · rintro (h | ⟨hc, _, hcond, _⟩)
        · exact h
        · cases hc; exact absurd hmp' hcond
    · have hmp' : ¬(p = AuthPolicy.always ∧ c0.password = none) := by
        simpa [Option.isNone_iff_eq_none] using hmp
      cases henv : env.http st.sends with
      | error e => simp [complete_request, nextRun, push, hmp, henv]
      | ok s =>
        by_cases hst : statusOk s = true
        · simp [complete_request, nextRun, push, hmp, henv, hst]
          constructor
          · rintro (hm | ⟨hu, hc⟩)
            · exact Or.inl hm
            · subst hc
              refine Or.inr ⟨rfl, hu, ?_⟩
              intro hpol hpw
              exact hmp' ⟨hpol, hpw⟩
          · rintro (hm | ⟨hc, hu, _⟩)
            · exact Or.inl hm
            · cases hc
              exact Or.inr ⟨hu, rfl⟩
        · simp [complete_request, nextRun, push, hmp, henv, hst]

theorem complete_request_events_kind (env : Env) (st : St)
    (creds : Option Credentials) (req : Request) (p : AuthPolicy) (e : Event)
    (h : e ∈ (complete_request env st creds req p).snd.events) :
    e ∈ st.events ∨ e = Event.httpSend req ∨
      ∃ c, creds = some c ∧ e = Event.cacheInsert req.url c := by
  unfold complete_request nextRun at h
  simp only [push] at h
  repeat' split at h
  all_goals simp_all
  all_goals tauto

theorem complete_request_not_cloneerr (env : Env) (st : St)
    (creds : Option Credentials) (req : Request) (p : AuthPolicy) :
    (complete_request env st creds req p).fst ≠ Outcome.err MwError.notCloneable ∧
    (complete_request env st creds req p).fst ≠ Outcome.err MwError.missingCredentials := by
  rcases creds with _ | c0
  · cases henv : env.http st.sends <;> simp [complete_request, nextRun, push, henv]
  · by_cases hmp : (p = AuthPolicy.always && c0.password.isNone) = true
    · simp [complete_request, hmp]
    · cases henv : env.http st.sends <;>
        simp [complete_request, nextRun, push, hmp, henv] <;>
        (try split) <;> simp

theorem complete_request_sends_le (env : Env) (st : St)
    (creds : Option Credentials) (req : Request) (p : AuthPolicy) :
    (complete_request env st creds req p).snd.sends ≤ st.sends + 1 := by
  unfold complete_request nextRun
  simp only [push]
  repeat' split
  all_goals simp

theorem crwrc_clone (env : Env) (st : St) (c : Credentials) (req : Request)
    (i : Option Url) (p : AuthPolicy)
    (h : Event.cloneAttempt ∈
      (complete_request_with_request_credentials env st c req i p).snd.events) :
    Event.cloneAttempt ∈ st.events := by
  unfold complete_request_with_request_credentials at h
  simp only [push] at h
  repeat' split at h
  all_goals
    rcases complete_request_events_kind _ _ _ _ _ _ h with h | h | ⟨c', hc', h⟩
  all_goals try simp_all
  all_goals
    rcases fetch_credentials_events_kind _ _ _ _ _ _ _ h with h | h
  all_goals simp_all [fetchPhaseEvent]

theorem handleTail2_clone (env : Env) (st : St) (req : Request)
    (c : Option Credentials) (i : Option Url) (p : AuthPolicy)
    (ahu : Bool) (resp : Option Nat)
    (h : Event.cloneAttempt ∈
      (handleTail2 env st req c i p ahu resp).snd.events) :
    Event.cloneAttempt ∈ st.events := by
  unfold handleTail2 at h
  simp only [push] at h
  repeat' split at h
  all_goals
    try rcases complete_request_events_kind _ _ _ _ _ _ h with h | h | ⟨c', hc', h⟩
  all_goals try simp_all
  all_goals
    rcases fetch_credentials_events_kind _ _ _ _ _ _ _ h with h | h
  all_goals simp_all [fetchPhaseEvent]

theorem handleTail2_not_cloneerr (env : Env) (st : St) (req : Request)
    (c : Option Credentials) (i : Option Url) (p : AuthPolicy)
    (ahu : Bool) (resp : Option Nat) :
    (handleTail2 env st req c i p ahu resp).fst ≠ Outcome.err MwError.notCloneable := by
  intro hcontra
  unfold handleTail2 at hcontra
  simp only [push] at hcontra
  repeat' split at hcontra
  all_goals
    first
    | exact (complete_request_not_cloneerr _ _ _ _ _).1 hcontra
    | simp_all

theorem crwrc_not_cloneerr (env : Env) (st : St) (c : Credentials) (req : Request)
    (i : Option Url) (p : AuthPolicy) :
    (complete_request_with_request_credentials env st c req i p).fst ≠
      Outcome.err MwError.notCloneable := by
  intro hcontra
  unfold complete_request_with_request_credentials at hcontra
  simp only [push] at hcontra
  repeat' split at hcontra
  all_goals exact (complete_request_not_cloneerr _ _ _ _ _).1 hcontra

/-- When unauthenticated probes are disallowed (`only_authenticated` or
policy `Always`), `handleTail` goes straight to the credential search. -/
theorem handleTail_no_probe (env : Env) (st : St) (req : Request)
    (c : Option Credentials) (i : Option Url) (p : AuthPolicy)
    (hp : env.onlyAuthenticated = true ∨ p = AuthPolicy.always) :
    handleTail env st req c i p =
      handleTail2 env st req c i p
        (match c with | some cr => cr.username.isSome | none => false) none := by
  unfold handleTail
  rcases hp with hp | hp <;> simp [hp]

/-- C10: for every request handled with `only_authenticated` set or auth
policy `Always`, the middleware never attempts to clone the request, and
never fails with the `NotCloneable` error. -/
theorem no_clone_when_forced_auth (env : Env) (req : Request)
    (hyp : env.onlyAuthenticated = true ∨ env.authPolicyFor req.url = AuthPolicy.always) :
    Event.cloneAttempt ∉ (handle env St0 req).snd.events ∧
    (handle env St0 req).fst ≠ Outcome.err MwError.notCloneable := by
  constructor
  · intro hmem
    unfold handle at hmem
    simp only [push] at hmem
    repeat' split at hmem
    all_goals
      first
      | (rw [handleTail_no_probe _ _ _ _ _ _ hyp] at hmem
         have hcl := handleTail2_clone _ _ _ _ _ _ _ _ hmem
         simp [St0, push] at hcl)
      | (have hcl := crwrc_clone _ _ _ _ _ _ hmem
         simp [St0] at hcl)
      | (rcases complete_request_events_kind _ _ _ _ _ _ hmem with h | h | ⟨c', _, h⟩ <;>
         simp_all [St0, push])
  · intro hcontra
    unfold handle at hcontra
    simp only [push] at hcontra
    repeat' split at hcontra
    all_goals
      first
      | (rw [handleTail_no_probe _ _ _ _ _ _ hyp] at hcontra
         exact handleTail2_not_cloneerr _ _ _ _ _ _ _ _ hcontra)
      | exact crwrc_not_cloneerr _ _ _ _ _ _ hcontra
      | exact (complete_request_not_cloneerr _ _ _ _ _).1 hcontra

def c10Env : Env :=
  { onlyAuthenticated := true
    indexUrlFor := fun _ => none
    authPolicyFor := fun _ => AuthPolicy.auto
    realmOf := fun _ => "realm"
    getUrl := fun _ _ => none
    getRealm := fun _ _ => none
    hf := fun _ => none
    netrc := none
    keyring := none
    http := fun _ => Except.ok 200
    fetchSlot := fun _ => none }

/-- Witness for C10 at a concrete input: a non-cloneable request under
`only_authenticated` is not rejected with `NotCloneable`. -/
theorem no_clone_when_forced_auth_witness :
    Event.cloneAttempt ∉ (handle c10Env St0 ⟨"https://h/x", none, false⟩).snd.events ∧
    (handle c10Env St0 ⟨"https://h/x", none, false⟩).fst ≠ Outcome.err MwError.notCloneable :=
  no_clone_when_forced_auth c10Env ⟨"https://h/x", none, false⟩ (Or.inl rfl)

theorem fetch_credentials_events_extend (env : Env) (st : St) (c : Option Credentials)
    (u : Url) (i : Option Url) (p : AuthPolicy) :
    ∃ l, (fetch_credentials env st c u i p).snd.events = st.events ++ l := by
  unfold fetch_credentials
  simp only [push]
  repeat' split
  all_goals simp only [List.append_assoc]
  all_goals first
    | exact ⟨_, rfl⟩
    | exact ⟨[], (List.append_nil _).symm⟩

theorem complete_request_events_extend (env : Env) (st : St)
    (creds : Option Credentials) (req : Request) (p : AuthPolicy) :
    ∃ l, (complete_request env st creds req p).snd.events = st.events ++ l := by
  unfold complete_request nextRun
  simp only [push]
  repeat' split
  all_goals simp only [List.append_assoc]
  all_goals first
    | exact ⟨_, rfl⟩
    | exact ⟨[], (List.append_nil _).symm⟩

theorem complete_request_events_mono (env : Env) (st : St)
    (creds : Option Credentials) (req : Request) (p : AuthPolicy) (e : Event)
    (h : e ∈ st.events) :
    e ∈ (complete_request env st creds req p).snd.events := by
  obtain ⟨l, hl⟩ := complete_request_events_extend env st creds req p
  rw [hl]
  exact List.mem_append_left _ h

theorem fetch_credentials_events_mono (env : Env) (st : St) (c : Option Credentials)
    (u : Url) (i : Option Url) (p : AuthPolicy) (e : Event)
    (h : e ∈ st.events) :
    e ∈ (fetch_credentials env st c u i p).snd.events := by
  obtain ⟨l, hl⟩ := fetch_credentials_events_extend env st c u i p
  rw [hl]
  exact List.mem_append_left _ h

/-- `fetch_credentials` always records its invocation. -/
theorem fetch_credentials_records_start (env : Env) (st : St) (c : Option Credentials)
    (u : Url) (i : Option Url) (p : AuthPolicy) :
    Event.fetchStart u (fetchKeyUsername c) ∈ (fetch_credentials env st c u i p).snd.events := by
  unfold fetch_credentials
  simp only [push]
  repeat' split
  all_goals simp

/-- The result of `fetch_credentials` does not depend on the incoming state
(the state only threads the trace). -/
theorem fetch_credentials_fst (env : Env) (st st' : St) (c : Option Credentials)
    (u : Url) (i : Option Url) (p : AuthPolicy) :
    (fetch_credentials env st c u i p).fst = (fetch_credentials env st' c u i p).fst := by
  unfold fetch_credentials
  simp only [push]
  repeat' split
  all_goals simp_all

/-- When probes are allowed and the request body cannot be cloned,
`handleTail` fails with `NotCloneable` before sending anything. -/
theorem handleTail_not_cloneable (env : Env) (st : St) (req : Request)
    (c : Option Credentials) (i : Option Url) (p : AuthPolicy)
    (hoa : env.onlyAuthenticated = false) (hp : p ≠ AuthPolicy.always)
    (hclone : req.cloneable = false) :
    handleTail env st req c i p =
      (Outcome.err MwError.notCloneable, push st Event.cloneAttempt) := by
  unfold handleTail
  simp [hoa, hp, hclone]

/-- C8: whenever an unauthenticated probe is about to be issued (probes
allowed — the policy is not `Always` and `only_authenticated` is unset — and
the handler reaches the probe: the policy is `Never`, or the request carries
no credentials and the URL cache has no password for it) and the request
body cannot be cloned, the middleware fails with `NotCloneable` and sends no
HTTP request. -/
theorem not_cloneable_before_probe (env : Env) (req : Request)
    (hpol : env.authPolicyFor req.url ≠ AuthPolicy.always)
    (hoa : env.onlyAuthenticated = false)
    (hclone : req.cloneable = false)
    (hprobe : env.authPolicyFor req.url = AuthPolicy.never ∨
      (req.headerCreds = none ∧
       ∀ c, env.getUrl req.url none = some c → c.password = none)) :
    (handle env St0 req).fst = Outcome.err MwError.notCloneable ∧
    (handle env St0 req).snd.sends = 0 := by
  unfold handle
  rcases hprobe with hnev | ⟨hreq, hcache⟩
  · simp [hnev, handleTail_not_cloneable, hoa, hclone, push, St0]
  · rcases hget : env.getUrl req.url none with _ | c0
    · simp [hreq, hget, handleTail_not_cloneable, hoa, hpol, hclone, push, St0]
      refine ⟨?_, ?_⟩ <;> split <;> rfl
    · have hpw : c0.password = none := hcache c0 hget
      simp [hreq, hget, hpw, handleTail_not_cloneable, hoa, hpol, hclone, push, St0,
        authenticate]
      refine ⟨?_, ?_⟩ <;> split <;> rfl

def c8Env : Env :=
  { onlyAuthenticated := false
    indexUrlFor := fun _ => none
    authPolicyFor := fun _ => AuthPolicy.auto
    realmOf := fun _ => "realm"
    getUrl := fun _ _ => none
    getRealm := fun _ _ => none
    hf := fun _ => none
    netrc := none
    keyring := none
    http := fun _ => Except.ok 200
    fetchSlot := fun _ => none }

/-- Witness for C8 at a concrete input. -/
theorem not_cloneable_before_probe_witness :
    (handle c8Env St0 ⟨"https://h/x", none, false⟩).fst = Outcome.err MwError.notCloneable ∧
    (handle c8Env St0 ⟨"https://h/x", none, false⟩).snd.sends = 0 :=
  not_cloneable_before_probe c8Env ⟨"https://h/x", none, false⟩
    (by decide) rfl rfl (Or.inr ⟨rfl, by intro c h; simp [c8Env] at h⟩)

/-- Under policy `Always`, a username-only request whose cache lookups and
provider fetches all come up empty fails with `MissingPassword` without a
send. -/
theorem crwrc_always_missing_password (env : Env) (st : St) (rc : Credentials)
    (req : Request) (i : Option Url) (hrc : rc.password = none)
    (hgu : ∀ u v, env.getUrl u v = none)
    (hgr : ∀ r v, env.getRealm r v = none)
    (hhf : ∀ v, env.hf v = none)
    (hn : ∀ f, env.netrc = some f → ∀ v w, f v w = none)
    (hk : ∀ k, env.keyring = some k → ∀ v w, k v w = none)
    (hs : ∀ key, env.fetchSlot key = none ∨ env.fetchSlot key = some none) :
    (complete_request_with_request_credentials env st rc req i AuthPolicy.always).fst =
      Outcome.err MwError.missingPassword ∧
    (complete_request_with_request_credentials env st rc req i AuthPolicy.always).snd.sends =
      st.sends := by
  have hfn : ∀ st' c', (fetch_credentials env st' c' req.url i AuthPolicy.always).fst = none :=
    fun st' c' => fetch_credentials_none env st' c' req.url i _ hhf hn hk hs
  unfold complete_request_with_request_credentials
  rcases i with _ | iu <;>
    simp [hrc, hgu, hgr, hfn, complete_request, push, fetch_credentials_sends]

/-- With no credentials at hand, empty caches and empty providers,
the credential search tail fails with `MissingCredentials` without a send. -/
theorem handleTail2_all_missing (env : Env) (st : St) (req : Request)
    (i : Option Url) (p : AuthPolicy) (ahu : Bool)
    (hgu : ∀ u v, env.getUrl u v = none)
    (hgr : ∀ r v, env.getRealm r v = none)
    (hhf : ∀ v, env.hf v = none)
    (hn : ∀ f, env.netrc = some f → ∀ v w, f v w = none)
    (hk : ∀ k, env.keyring = some k → ∀ v w, k v w = none)
    (hs : ∀ key, env.fetchSlot key = none ∨ env.fetchSlot key = some none) :
    (handleTail2 env st req none i p ahu none).fst =
      Outcome.err MwError.missingCredentials ∧
    (handleTail2 env st req none i p ahu none).snd.sends = st.sends := by
  have hfn : ∀ st' c', (fetch_credentials env st' c' req.url i p).fst = none :=
    fun st' c' => fetch_credentials_none env st' c' req.url i _ hhf hn hk hs
  unfold handleTail2
  rcases i with _ | iu <;>
    simp [hgu, hgr, hfn, push, fetch_credentials_sends]

end UvAuth

namespace UvAuth

/-- C1 (amended): under policy `Always`, when the request carries no
password and neither the cache nor any provider yields credentials, the
middleware fails with `MissingPassword` (username-only request) or
`MissingCredentials` (bare request) and sends no HTTP request. -/
theorem always_no_discovery_fails_without_send (env : Env) (req : Request)
    (hpol : env.authPolicyFor req.url = AuthPolicy.always)
    (hreq : req.headerCreds.bind Credentials.password = none)
    (hgu : ∀ u v, env.getUrl u v = none)
    (hgr : ∀ r v, env.getRealm r v = none)
    (hhf : ∀ v, env.hf v = none)
    (hn : ∀ f, env.netrc = some f → ∀ v w, f v w = none)
    (hk : ∀ k, env.keyring = some k → ∀ v w, k v w = none)
    (hs : ∀ key, env.fetchSlot key = none ∨ env.fetchSlot key = some none) :
    ((handle env St0 req).fst = Outcome.err MwError.missingPassword ∨
     (handle env St0 req).fst = Outcome.err MwError.missingCredentials) ∧
    (handle env St0 req).snd.sends = 0 := by
  unfold handle
  rcases hrq : req.headerCreds with _ | rc
  · have h2 := handleTail2_all_missing env (push St0 (Event.cacheGetUrl req.url none)) req
      (env.indexUrlFor req.url) AuthPolicy.always false hgu hgr hhf hn hk hs
    simp only [St0, push, List.nil_append] at h2
    simp [handleTail_no_probe, hpol, hrq, hgu, St0, push]
    exact ⟨Or.inr h2.1, h2.2⟩
  · have hpw : rc.password = none := by
      rw [hrq] at hreq
      simpa using hreq
    have h1 := crwrc_always_missing_password env St0 rc req (env.indexUrlFor req.url)
      hpw hgu hgr hhf hn hk hs
    simp only [St0] at h1
    simp [hpol, hrq, St0]
    exact ⟨Or.inl h1.1, h1.2⟩

def c1wEnv : Env :=
  { onlyAuthenticated := false
    indexUrlFor := fun _ => none
    authPolicyFor := fun _ => AuthPolicy.always
    realmOf := fun _ => "realm"
    getUrl := fun _ _ => none
    getRealm := fun _ _ => none
    hf := fun _ => none
    netrc := none
    keyring := none
    http := fun _ => Except.ok 200
    fetchSlot := fun _ => none }

/-- Witness for the amended C1 at a concrete input. -/
theorem always_no_discovery_fails_without_send_witness :
    ((handle c1wEnv St0 ⟨"https://h/x", none, true⟩).fst = Outcome.err MwError.missingPassword ∨
     (handle c1wEnv St0 ⟨"https://h/x", none, true⟩).fst = Outcome.err MwError.missingCredentials) ∧
    (handle c1wEnv St0 ⟨"https://h/x", none, true⟩).snd.sends = 0 :=
  always_no_discovery_fails_without_send c1wEnv ⟨"https://h/x", none, true⟩
    rfl rfl (fun _ _ => rfl) (fun _ _ => rfl) (fun _ => rfl)
    (fun f hf' => by simp [c1wEnv] at hf') (fun k hk' => by simp [c1wEnv] at hk')
    (fun _ => Or.inl rfl)

def c1Env : Env :=
  { onlyAuthenticated := false
    indexUrlFor := fun _ => none
    authPolicyFor := fun _ => AuthPolicy.always
    realmOf := fun _ => "realm"
    getUrl := fun _ _ => none
    getRealm := fun _ u => if u = none then some ⟨some "user", none⟩ else none
    hf := fun _ => none
    netrc := none
    keyring := none
    http := fun _ => Except.ok 200
    fetchSlot := fun _ => none }

/-- Counterexample to C1 as stated: policy is `Always`, discovery yields no
password anywhere (the realm cache holds a username-only entry, every
provider is empty), yet the middleware sends the request and returns the
response instead of failing. -/
theorem always_username_only_cache_sends_counterexample :
    (handle c1Env St0 ⟨"https://h/x", none, true⟩).fst = Outcome.ok 200 ∧
    (handle c1Env St0 ⟨"https://h/x", none, true⟩).snd.sends = 1 := by
  constructor <;> rfl

/-- C2 (amended): under auth policy `Never` with `only_authenticated` unset
and a cloneable body, the middleware sends the request exactly once and
completely unmodified, consults nothing, and returns the raw response
(transport errors propagate). -/
theorem never_passthrough (env : Env) (req : Request)
    (hpol : env.authPolicyFor req.url = AuthPolicy.never)
    (hoa : env.onlyAuthenticated = false)
    (hclone : req.cloneable = true) :
    handle env St0 req =
      ((match env.http 0 with
        | Except.ok s => Outcome.ok s
        | Except.error _ => Outcome.err MwError.transport),
       ⟨1, [Event.cloneAttempt, Event.httpSend req]⟩) := by
  unfold handle handleTail nextRun
  simp [hpol, hoa, hclone, push, St0]
  cases env.http 0 <;> simp

def c2Env : Env :=
  { onlyAuthenticated := true
    indexUrlFor := fun _ => none
    authPolicyFor := fun _ => AuthPolicy.never
    realmOf := fun _ => "realm"
    getUrl := fun _ _ => none
    getRealm := fun _ _ => none
    hf := fun _ => none
    netrc := some (fun _ _ => none)
    keyring := none
    http := fun _ => Except.ok 200
    fetchSlot := fun _ => none }

/-- Counterexample to C2 as stated: with policy `Never` but
`only_authenticated` set, the middleware consults the provider chain (the
known-provider and netrc checks appear in the trace) and even fails with
`MissingCredentials` instead of passing the request through. -/
theorem never_only_authenticated_consults_providers_counterexample :
    Event.netrcCheck "https://h/x" none ∈
      (handle c2Env St0 ⟨"https://h/x", none, true⟩).snd.events ∧
    (handle c2Env St0 ⟨"https://h/x", none, true⟩).fst =
      Outcome.err MwError.missingCredentials ∧
    (handle c2Env St0 ⟨"https://h/x", none, true⟩).snd.sends = 0 := by
  refine ⟨?_, rfl, rfl⟩
  decide

/-- Witness for the amended C2 at a concrete input. -/
theorem never_passthrough_witness :
    handle { c2Env with onlyAuthenticated := false } St0 ⟨"https://h/x", none, true⟩ =
      (Outcome.ok 200, ⟨1, [Event.cloneAttempt,
        Event.httpSend ⟨"https://h/x", none, true⟩]⟩) := by
  have h := never_passthrough { c2Env with onlyAuthenticated := false }
    ⟨"https://h/x", none, true⟩ rfl rfl rfl
  simpa using h



/-- The credential-search tail always records its first cache lookup
(the index-URL lookup when an index is known, else the realm lookup). -/
theorem handleTail2_first_lookup_mem (env : Env) (st : St) (req : Request)
    (c : Option Credentials) (i : Option Url) (p : AuthPolicy)
    (ahu : Bool) (resp : Option Nat) :
    (match i with
     | some iu => Event.cacheGetUrl iu (c.bind (fun cr => cr.username))
     | none => Event.cacheGetRealm (env.realmOf req.url) (c.bind (fun cr => cr.username)))
      ∈ (handleTail2 env st req c i p ahu resp).snd.events := by
  unfold handleTail2
  simp only [push]
  rcases i with _ | iu
  · repeat' split
    all_goals try apply complete_request_events_mono
    all_goals
      try (apply (fetch_credentials_events_extend _ _ _ _ _ _).elim
           intro l hl
           rw [hl])
    all_goals simp
  · rcases hgi : env.getUrl iu (c.bind fun cr => cr.username) with _ | cg
    all_goals simp only [hgi]
    all_goals repeat' split
    all_goals try apply complete_request_events_mono
    all_goals
      try (apply (fetch_credentials_events_extend _ _ _ _ _ _).elim
           intro l hl
           rw [hl])
    all_goals simp



/-- C3 (amended): after an unauthenticated (or username-only) probe under
policy `Auto`, credential discovery is triggered exactly when the status is
401, 403 or 404; any other status makes the probe response the final result,
with exactly one send and no discovery.  (Under policy `Never` the probe
response is always returned as-is; see the counterexample.) -/
theorem probe_status_classification (env : Env) (req : Request) (s : Nat)
    (hpol : env.authPolicyFor req.url = AuthPolicy.auto)
    (hoa : env.onlyAuthenticated = false)
    (hclone : req.cloneable = true)
    (hreq : req.headerCreds = none)
    (hcache : ∀ c, env.getUrl req.url none = some c → c.password = none)
    (hhttp : env.http 0 = Except.ok s) :
    (¬(s = 401 ∨ s = 403 ∨ s = 404) →
      handle env St0 req =
        (Outcome.ok s,
         ⟨1, [Event.cacheGetUrl req.url none, Event.cloneAttempt,
              Event.httpSend
                (match env.getUrl req.url none with
                 | some c => authenticate c req
                 | none => req)]⟩)) ∧
    ((s = 401 ∨ s = 403 ∨ s = 404) →
      (match env.indexUrlFor req.url with
       | some iu =>
         Event.cacheGetUrl iu ((env.getUrl req.url none).bind (fun c => c.username))
       | none =>
         Event.cacheGetRealm (env.realmOf req.url)
           ((env.getUrl req.url none).bind (fun c => c.username)))
        ∈ (handle env St0 req).snd.events) := by
  constructor
  · intro hset
    unfold handle handleTail nextRun
    rcases hget : env.getUrl req.url none with _ | c0
    · have h1 : s ≠ 401 := fun h => hset (Or.inl h)
      have h3 : s ≠ 403 := fun h => hset (Or.inr (Or.inl h))
      have h4 : s ≠ 404 := fun h => hset (Or.inr (Or.inr h))
      simp [hpol, hoa, hclone, hreq, hget, hhttp, push, St0, h1, h3, h4]
    · have hpw : c0.password = none := hcache c0 hget
      have h1 : s ≠ 401 := fun h => hset (Or.inl h)
      have h3 : s ≠ 403 := fun h => hset (Or.inr (Or.inl h))
      have h4 : s ≠ 404 := fun h => hset (Or.inr (Or.inr h))
      simp [hpol, hoa, hclone, hreq, hget, hpw, hhttp, push, St0, h1, h3, h4,
        authenticate]
  · intro hset
    unfold handle handleTail nextRun
    rcases hget : env.getUrl req.url none with _ | c0
    · simp only [hpol, hoa, hclone, hreq, hget, hhttp, push, St0]
      simp only [List.nil_append]
      have hlk := handleTail2_first_lookup_mem env
        ⟨1, [Event.cacheGetUrl req.url none, Event.cloneAttempt, Event.httpSend req]⟩
        req none (env.indexUrlFor req.url) AuthPolicy.auto false (some s)
      rcases hset with h | h | h <;> subst h <;> simpa using hlk
    · have hpw : c0.password = none := hcache c0 hget
      simp only [hpol, hoa, hclone, hreq, hget, hpw, hhttp, push, St0, authenticate]
      simp only [List.nil_append]
      have hlk := handleTail2_first_lookup_mem env
        ⟨1, [Event.cacheGetUrl req.url none, Event.cloneAttempt,
             Event.httpSend ⟨req.url, some c0, req.cloneable⟩]⟩
        ⟨req.url, some c0, req.cloneable⟩ (some c0) (env.indexUrlFor req.url)
        AuthPolicy.auto c0.username.isSome (some s)
      rcases hset with h | h | h <;> subst h <;> simpa [authenticate, hclone] using hlk

def c3Env : Env :=
  { onlyAuthenticated := false
    indexUrlFor := fun _ => none
    authPolicyFor := fun _ => AuthPolicy.never
    realmOf := fun _ => "realm"
    getUrl := fun _ _ => none
    getRealm := fun _ _ => none
    hf := fun _ => none
    netrc := none
    keyring := none
    http := fun _ => Except.ok 401
    fetchSlot := fun _ => none }

/-- Counterexample to C3 as stated: under policy `Never` the probe comes
back 401 — a status in the discovery-triggering set — yet the response is
returned as-is and the trace shows no discovery at all (no cache lookup, no
provider call). -/
theorem never_401_no_discovery_counterexample :
    handle c3Env St0 ⟨"https://h/x", none, true⟩ =
      (Outcome.ok 401,
       ⟨1, [Event.cloneAttempt, Event.httpSend ⟨"https://h/x", none, true⟩]⟩) := by
  rfl

def c3wEnv : Env := { c3Env with authPolicyFor := fun _ => AuthPolicy.auto }

def c3wEnv500 : Env := { c3wEnv with http := fun _ => Except.ok 500 }

/-- Witness for the amended C3 at concrete inputs: a 500 probe response is
returned as-is, and a 401 probe response triggers the realm cache lookup. -/
theorem probe_status_classification_witness :
    (handle c3wEnv500 St0 ⟨"https://h/x", none, true⟩ =
      (Outcome.ok 500,
       ⟨1, [Event.cacheGetUrl "https://h/x" none, Event.cloneAttempt,
            Event.httpSend ⟨"https://h/x", none, true⟩]⟩)) ∧
    Event.cacheGetRealm "realm" none ∈
      (handle c3wEnv St0 ⟨"https://h/x", none, true⟩).snd.events := by
  constructor
  · exact (probe_status_classification c3wEnv500 ⟨"https://h/x", none, true⟩ 500 rfl rfl rfl rfl
      (fun c h => by simp [c3wEnv500, c3wEnv, c3Env] at h) rfl).1 (by decide)
  · exact (probe_status_classification c3wEnv ⟨"https://h/x", none, true⟩ 401 rfl rfl rfl rfl
      (fun c h => by simp [c3wEnv, c3Env] at h) rfl).2 (by decide)

/-- C4 (amended): `complete_request` inserts credentials into the cache
exactly when the wrapped send returns a response that is not a client or
server error (4xx/5xx); every 4xx/5xx response and every transport error
leaves the cache untouched.  (Not only 2xx: see the counterexample.) -/
theorem cache_insert_only_on_success (env : Env) (st : St)
    (creds : Option Credentials) (req : Request) (p : AuthPolicy)
    (u : Url) (c : Credentials) :
    Event.cacheInsert u c ∈ (complete_request env st creds req p).snd.events ↔
      (Event.cacheInsert u c ∈ st.events ∨
        (creds = some c ∧ u = req.url ∧
         ¬(p = AuthPolicy.always ∧ c.password = none) ∧
         ∃ s, env.http st.sends = Except.ok s ∧ statusOk s = true)) :=
  complete_request_insert_iff env st creds req p u c

def c4Env : Env :=
  { onlyAuthenticated := false
    indexUrlFor := fun _ => none
    authPolicyFor := fun _ => AuthPolicy.auto
    realmOf := fun _ => "realm"
    getUrl := fun _ _ => none
    getRealm := fun _ _ => none
    hf := fun _ => none
    netrc := none
    keyring := none
    http := fun _ => Except.ok 301
    fetchSlot := fun _ => none }

/-- Counterexample to C4 as stated: a 301 response is not a 2xx status, yet
the credentials are inserted into the cache. -/
theorem insert_on_redirect_counterexample :
    Event.cacheInsert "https://h/x" ⟨some "u", some "p"⟩ ∈
      (complete_request c4Env St0 (some ⟨some "u", some "p"⟩)
        ⟨"https://h/x", some ⟨some "u", some "p"⟩, true⟩ AuthPolicy.auto).snd.events ∧
    (complete_request c4Env St0 (some ⟨some "u", some "p"⟩)
        ⟨"https://h/x", some ⟨some "u", some "p"⟩, true⟩ AuthPolicy.auto).fst =
      Outcome.ok 301 := by
  constructor
  · decide
  · rfl



/-- When the provider fetch yields nothing, the credential-search tail never
inserts into the cache: everything it might attach is cache-sourced. -/
theorem handleTail2_no_insert_without_fetch (env : Env) (st : St) (req : Request)
    (c : Option Credentials) (i : Option Url) (p : AuthPolicy)
    (ahu : Bool) (resp : Option Nat)
    (hfn : ∀ st' c', (fetch_credentials env st' c' req.url i p).fst = none)
    (u : Url) (cr : Credentials)
    (h : Event.cacheInsert u cr ∈ (handleTail2 env st req c i p ahu resp).snd.events) :
    Event.cacheInsert u cr ∈ st.events := by
  unfold handleTail2 at h
  simp only [push] at h
  repeat' split at h
  all_goals try simp_all
  all_goals
    try (rcases complete_request_events_kind _ _ _ _ _ _ h with h | h | ⟨c', hc', h⟩ <;>
      try simp_all)
  all_goals
    rcases fetch_credentials_events_kind _ _ _ _ _ _ _ h with h | h <;>
      simp_all [fetchPhaseEvent]

theorem handleTail_no_insert_without_fetch (env : Env) (st : St) (req : Request)
    (c : Option Credentials) (i : Option Url) (p : AuthPolicy)
    (hfn : ∀ st' c', (fetch_credentials env st' c' req.url i p).fst = none)
    (u : Url) (cr : Credentials)
    (h : Event.cacheInsert u cr ∈ (handleTail env st req c i p).snd.events) :
    Event.cacheInsert u cr ∈ st.events := by
  unfold handleTail at h
  simp only [push, nextRun] at h
  repeat' split at h
  all_goals
    try (have h2 := handleTail2_no_insert_without_fetch _ _ _ _ _ _ _ _ hfn _ _ h
         simp only [List.mem_append, List.mem_cons, List.not_mem_nil, or_false] at h2 ⊢
         tauto)
  all_goals simp_all [nextRun]



/-- C5 (amended): the middleware does not re-insert cache-sourced
credentials, with one exception.  (i) For a request without attached
credentials, if the providers yield nothing — so every credential the
handler can use is cache-sourced — no cache insert happens at all.
(ii) In the username-only path, a hit in the index-URL/realm lookup or in
the request-URL lookup is used without re-inserting it.  The exception,
forced by the counterexample, is the known-index realm fallback, which
re-inserts its cache-sourced hit on success. -/
theorem no_reinsert_of_cache_sourced :
    (∀ (env : Env) (req : Request), req.headerCreds = none →
      (∀ v, env.hf v = none) →
      (∀ f, env.netrc = some f → ∀ v w, f v w = none) →
      (∀ k, env.keyring = some k → ∀ v w, k v w = none) →
      (∀ key, env.fetchSlot key = none ∨ env.fetchSlot key = some none) →
      ∀ u c, Event.cacheInsert u c ∉ (handle env St0 req).snd.events) ∧
    (∀ (env : Env) (rc : Credentials) (req : Request) (i : Option Url) (p : AuthPolicy),
      rc.password = none →
      ((match i with
        | some iu => env.getUrl iu rc.username
        | none => env.getRealm (env.realmOf req.url) rc.username).isSome ∨
       ((match i with
         | some iu => env.getUrl iu rc.username
         | none => env.getRealm (env.realmOf req.url) rc.username) = none ∧
        (env.getUrl req.url rc.username).isSome)) →
      ∀ u c, Event.cacheInsert u c ∉
        (complete_request_with_request_credentials env St0 rc req i p).snd.events) := by
  constructor
  · intro env req hreq hhf hn hk hs u c hmem
    have hfn : ∀ i' u' st' c', (fetch_credentials env st' c' u' i' (env.authPolicyFor req.url)).fst = none :=
      fun i' u' st' c' => fetch_credentials_none env st' c' u' i' _ hhf hn hk hs
    unfold handle at hmem
    simp only [push] at hmem
    repeat' split at hmem
    all_goals
      first
      | (have h2 := handleTail_no_insert_without_fetch _ _ _ _ _ _ (hfn _ _) _ _ hmem
         simp_all [St0])
      | (rcases complete_request_events_kind _ _ _ _ _ _ hmem with h | h | ⟨c', hc', h⟩ <;>
         simp_all [St0])
      | simp_all [St0]
  · intro env rc req i p hrc hhit u c hmem
    unfold complete_request_with_request_credentials at hmem
    simp only [push] at hmem
    rcases hhit with hhit | ⟨hmiss, hhit⟩
    · rcases hs1 : (match i with
        | some iu => env.getUrl iu rc.username
        | none => env.getRealm (env.realmOf req.url) rc.username) with _ | cc
      · rw [hs1] at hhit; simp at hhit
      · rcases i with _ | iu <;>
          simp only at hs1 <;>
          simp only [hrc, Option.isSome_none, Bool.false_eq_true, if_false,
            hs1, Option.isSome_some] at hmem <;>
          rcases complete_request_events_kind _ _ _ _ _ _ hmem with h | h | ⟨c', hc', h⟩ <;>
          simp_all [St0, push, Option.isSome]
    · rcases hs2 : env.getUrl req.url rc.username with _ | cc
      · rw [hs2] at hhit; simp at hhit
      · rcases i with _ | iu <;>
          simp only at hmiss <;>
          simp only [hrc, hmiss, hs2, Option.isSome_none, Bool.false_eq_true,
            if_false] at hmem <;>
          rcases complete_request_events_kind _ _ _ _ _ _ hmem with h | h | ⟨c', hc', h⟩ <;>
          simp_all [St0, push, Option.isSome]



def c5Env : Env :=
  { onlyAuthenticated := false
    indexUrlFor := fun _ => some "https://h/idx"
    authPolicyFor := fun _ => AuthPolicy.auto
    realmOf := fun _ => "realm"
    getUrl := fun _ _ => none
    getRealm := fun _ u => if u = some "u" then some ⟨some "u", some "pw"⟩ else none
    hf := fun _ => none
    netrc := none
    keyring := none
    http := fun _ => Except.ok 200
    fetchSlot := fun _ => none }

/-- Counterexample to C5 as stated: in the username-only path with a known
index, the index-URL and request-URL lookups and the providers all miss, the
realm fallback hits — and those cache-sourced credentials are re-inserted
into the cache on success. -/
theorem realm_fallback_reinserts_counterexample :
    c5Env.getRealm "realm" (some "u") = some ⟨some "u", some "pw"⟩ ∧
    Event.cacheInsert "https://h/x" ⟨some "u", some "pw"⟩ ∈
      (complete_request_with_request_credentials c5Env St0 ⟨some "u", none⟩
        ⟨"https://h/x", some ⟨some "u", none⟩, true⟩ (some "https://h/idx")
        AuthPolicy.auto).snd.events := by
  exact ⟨rfl, by decide⟩

def c5wEnv : Env :=
  { c5Env with
    getUrl := fun _ u => if u = some "u" then some ⟨some "u", some "pw"⟩ else none }

/-- Witness for the amended C5 at concrete inputs. -/
theorem no_reinsert_of_cache_sourced_witness :
    Event.cacheInsert "https://h/x" ⟨some "u", some "pw"⟩ ∉
      (handle c1wEnv St0 ⟨"https://h/x", none, true⟩).snd.events ∧
    Event.cacheInsert "https://h/x" ⟨some "u", some "pw"⟩ ∉
      (complete_request_with_request_credentials c5wEnv St0 ⟨some "u", none⟩
        ⟨"https://h/x", some ⟨some "u", none⟩, true⟩ (some "https://h/idx")
        AuthPolicy.auto).snd.events :=
  ⟨no_reinsert_of_cache_sourced.1 c1wEnv ⟨"https://h/x", none, true⟩ rfl
      (fun _ => rfl) (fun f hf' => by simp [c1wEnv] at hf')
      (fun k hk' => by simp [c1wEnv] at hk') (fun _ => Or.inl rfl) _ _,
   no_reinsert_of_cache_sourced.2 c5wEnv ⟨some "u", none⟩
      ⟨"https://h/x", some ⟨some "u", none⟩, true⟩ (some "https://h/idx")
      AuthPolicy.auto rfl (Or.inl (by decide)) _ _⟩

/-- C7: the keyring is consulted only when (a) a username is available — the
service argument is then the index URL when one is known, else the request
URL — or (b) the auth policy is `Always` and an index URL is known, in which
case it is fetched with no username and the index URL as service.  In every
other case the keyring is not called. -/
theorem keyring_consultation_conditions (env : Env) (creds : Option Credentials)
    (url : Url) (i : Option Url) (p : AuthPolicy) (s : Url) (v : Option String)
    (h : Event.keyringFetch s v ∈ (fetch_credentials env St0 creds url i p).snd.events) :
    (∃ un, creds.bind (fun c => c.username) = some un ∧ v = some un ∧
      s = i.getD url) ∨
    (creds.bind (fun c => c.username) = none ∧ p = AuthPolicy.always ∧
      v = none ∧ ∃ iu, i = some iu ∧ s = iu) := by
  unfold fetch_credentials at h
  simp only [push, St0] at h
  repeat' split at h
  all_goals simp_all



def c7Env : Env :=
  { onlyAuthenticated := false
    indexUrlFor := fun _ => some "https://h/idx"
    authPolicyFor := fun _ => AuthPolicy.auto
    realmOf := fun _ => "realm"
    getUrl := fun _ _ => none
    getRealm := fun _ _ => none
    hf := fun _ => none
    netrc := none
    keyring := some (fun _ _ => some ⟨some "u", some "p"⟩)
    http := fun _ => Except.ok 200
    fetchSlot := fun _ => none }

/-- Witness for C7 at a concrete input: the keyring is called with the index
URL as service and the request's username. -/
theorem keyring_consultation_conditions_witness :
    (∃ un, (some (⟨some "u", none⟩ : Credentials)).bind (fun c => c.username) = some un ∧
      (some "u" : Option String) = some un ∧
      ("https://h/idx" : Url) = (some "https://h/idx" : Option Url).getD "https://h/x") ∨
    ((some (⟨some "u", none⟩ : Credentials)).bind (fun c => c.username) = none ∧
      AuthPolicy.auto = AuthPolicy.always ∧ (some "u" : Option String) = none ∧
      ∃ iu, (some "https://h/idx" : Option Url) = some iu ∧ ("https://h/idx" : Url) = iu) :=
  keyring_consultation_conditions c7Env (some ⟨some "u", none⟩) "https://h/x"
    (some "https://h/idx") AuthPolicy.auto "https://h/idx" (some "u") (by decide)



/-! ### C6: the password-search order of the username-only path, as the
claim states it (spec-side definitions, to be compared with the embedded
`complete_request_with_request_credentials`). -/

/-- Claimed source (1): the index-URL lookup when an index is matched, else
the realm lookup. -/
def c6_step1 (env : Env) (req : Request) (i : Option Url) (u : Option String) :
    Option Credentials :=
  match i with
  | some iu => env.getUrl iu u
  | none => env.getRealm (env.realmOf req.url) u

/-- Claimed source (2): the request-URL lookup. -/
def c6_step2 (env : Env) (req : Request) (u : Option String) : Option Credentials :=
  env.getUrl req.url u

/-- Claimed source (3): the single-flight provider fetch. -/
def c6_fetch (env : Env) (rc : Credentials) (req : Request) (i : Option Url)
    (p : AuthPolicy) : Option Credentials :=
  (fetch_credentials env St0 (some rc) req.url i p).fst

/-- Claimed source (4): the realm fallback, only when an index was matched. -/
def c6_step4 (env : Env) (req : Request) (i : Option Url) (u : Option String) :
    Option Credentials :=
  match i with
  | some _ => env.getRealm (env.realmOf req.url) u
  | none => none

/-- The claimed chain: the first source yielding credentials. -/
def c6_chain (env : Env) (rc : Credentials) (req : Request) (i : Option Url)
    (p : AuthPolicy) : Option Credentials :=
  ((c6_step1 env req i rc.username <|> c6_step2 env req rc.username) <|>
    c6_fetch env rc req i p) <|> c6_step4 env req i rc.username






set_option maxHeartbeats 1000000

/-- The search order of the username-only path, with the provider-fetch
result abstracted to `fv`. -/
theorem crwrc_order_spec (env : Env) (rc : Credentials) (req : Request)
    (i : Option Url) (p : AuthPolicy) (fv : Option Credentials)
    (hrc : rc.password = none) (hreqc : req.headerCreds = some rc)
    (hfv : ∀ st' : St, (fetch_credentials env st' (some rc) req.url i p).fst = fv) :
    ((match i with
      | some iu => Event.cacheGetUrl iu rc.username
      | none => Event.cacheGetRealm (env.realmOf req.url) rc.username) ∈
        (complete_request_with_request_credentials env St0 rc req i p).snd.events) ∧
    (∀ r, Event.httpSend r ∈
        (complete_request_with_request_credentials env St0 rc req i p).snd.events →
      r = authenticate
        ((((c6_step1 env req i rc.username <|> c6_step2 env req rc.username) <|> fv) <|>
          c6_step4 env req i rc.username).getD rc) req) ∧
    (Event.fetchStart req.url (fetchKeyUsername (some rc)) ∈
        (complete_request_with_request_credentials env St0 rc req i p).snd.events ↔
      (c6_step1 env req i rc.username = none ∧ c6_step2 env req rc.username = none)) ∧
    (∀ iu, i = some iu → iu ≠ req.url →
      (Event.cacheGetUrl req.url rc.username ∈
          (complete_request_with_request_credentials env St0 rc req i p).snd.events ↔
        c6_step1 env req i rc.username = none)) ∧
    (i = none →
      (Event.cacheGetUrl req.url rc.username ∈
          (complete_request_with_request_credentials env St0 rc req i p).snd.events ↔
        c6_step1 env req i rc.username = none)) ∧
    (∀ iu, i = some iu →
      (Event.cacheGetRealm (env.realmOf req.url) rc.username ∈
          (complete_request_with_request_credentials env St0 rc req i p).snd.events ↔
        (c6_step1 env req i rc.username = none ∧ c6_step2 env req rc.username = none ∧
         fv = none))) := by
  have hra : authenticate rc req = req := by
    cases req
    simp only [authenticate, Request.mk.injEq] at hreqc ⊢
    simp_all
  unfold complete_request_with_request_credentials
  simp only [hrc, Option.isSome_none, Bool.false_eq_true, if_false, push, St0, hfv]
  rcases i with _ | iu
  · rcases hs1 : env.getRealm (env.realmOf req.url) rc.username with _ | c1 <;>
      simp only [hs1]
    · rcases hs2 : env.getUrl req.url rc.username with _ | c2 <;> simp only [hs2]
      · rcases hf : fv with _ | cf <;> simp only [hf]
        · -- everything missed: sent with the original credentials
          refine ⟨?_, ?_, ?_, ?_, ?_, ?_⟩
          · exact complete_request_events_mono _ _ _ _ _ _ (by
              apply fetch_credentials_events_mono
              simp)
          · intro r hr
            rcases complete_request_events_kind _ _ _ _ _ _ hr with h | h | ⟨c', hc', h⟩
            · rcases fetch_credentials_events_kind _ _ _ _ _ _ _ h with h | h <;>
                simp_all [fetchPhaseEvent]
            · simp_all [c6_step1, c6_step2, c6_step4, hs1, hs2, hra]
            · simp_all
          · simp only [c6_step1, c6_step2, hs1, hs2, iff_true, and_self]
            exact complete_request_events_mono _ _ _ _ _ _
              (fetch_credentials_records_start _ _ _ _ _ _)
          · intro iu h
            simp at h
          · intro _
            simp only [c6_step1, hs1]
            constructor
            · intro _; trivial
            · intro _
              exact complete_request_events_mono _ _ _ _ _ _ (by
                apply fetch_credentials_events_mono
                simp)
          · intro iu h
            simp at h
        · -- fetch hit
          refine ⟨?_, ?_, ?_, ?_, ?_, ?_⟩
          · exact complete_request_events_mono _ _ _ _ _ _ (by
              apply fetch_credentials_events_mono
              simp)
          · intro r hr
            rcases complete_request_events_kind _ _ _ _ _ _ hr with h | h | ⟨c', hc', h⟩
            · rcases fetch_credentials_events_kind _ _ _ _ _ _ _ h with h | h <;>
                simp_all [fetchPhaseEvent]
            · simp_all [c6_step1, c6_step2, c6_step4, hs1, hs2]
            · simp_all
          · simp only [c6_step1, c6_step2, hs1, hs2, iff_true, and_self]
            exact complete_request_events_mono _ _ _ _ _ _
              (fetch_credentials_records_start _ _ _ _ _ _)
          · intro iu h
            simp at h
          · intro _
            simp only [c6_step1, hs1]
            constructor
            · intro _; trivial
            · intro _
              exact complete_request_events_mono _ _ _ _ _ _ (by
                apply fetch_credentials_events_mono
                simp)
          · intro iu h
            simp at h
      · -- request-URL cache hit
        refine ⟨?_, ?_, ?_, ?_, ?_, ?_⟩
        · exact complete_request_events_mono _ _ _ _ _ _ (by simp)
        · intro r hr
          rcases complete_request_events_kind _ _ _ _ _ _ hr with h | h | ⟨c', hc', h⟩
          · simp_all
          · simp_all [c6_step1, c6_step2, c6_step4, hs1, hs2]
          · simp_all
        · simp only [c6_step1, c6_step2, hs1, hs2]
          constructor
          · intro h
            rcases complete_request_events_kind _ _ _ _ _ _ h with h | h | ⟨c', hc', h⟩ <;>
              simp_all
          · rintro ⟨_, h⟩
            simp at h
        · intro iu h
          simp at h
        · intro _
          simp only [c6_step1, hs1, iff_true]
          exact complete_request_events_mono _ _ _ _ _ _ (by simp)
        · intro iu h
          simp at h
    · -- realm cache hit (step 1, no index)
      refine ⟨?_, ?_, ?_, ?_, ?_, ?_⟩
      · exact complete_request_events_mono _ _ _ _ _ _ (by simp)
      · intro r hr
        rcases complete_request_events_kind _ _ _ _ _ _ hr with h | h | ⟨c', hc', h⟩
        · simp_all
        · simp_all [c6_step1, c6_step2, c6_step4, hs1]
        · simp_all
      · simp only [c6_step1, hs1]
        constructor
        · intro h
          rcases complete_request_events_kind _ _ _ _ _ _ h with h | h | ⟨c', hc', h⟩ <;>
            simp_all
        · rintro ⟨h, _⟩
          simp at h
      · intro iu h
        simp at h
      · intro _
        simp only [c6_step1, hs1]
        constructor
        · intro h
          rcases complete_request_events_kind _ _ _ _ _ _ h with h | h | ⟨c', hc', h⟩ <;>
            simp_all
        · intro h
          simp at h
      · intro iu h
        simp at h
  · rcases hs1 : env.getUrl iu rc.username with _ | c1 <;> simp only [hs1]
    · rcases hs2 : env.getUrl req.url rc.username with _ | c2 <;> simp only [hs2]
      · rcases hf : fv with _ | cf <;> simp only [hf]
        · rcases hs4 : env.getRealm (env.realmOf req.url) rc.username with _ | c4 <;>
            simp only [hs4]
          · -- everything missed: sent with the original credentials
            refine ⟨?_, ?_, ?_, ?_, ?_, ?_⟩
            · apply complete_request_events_mono
              simp only [List.mem_append]
              left
              apply fetch_credentials_events_mono
              simp
            · intro r hr
              rcases complete_request_events_kind _ _ _ _ _ _ hr with h | h | ⟨c', hc', h⟩
              · simp only [List.mem_append, List.mem_singleton] at h
                rcases h with h | h
                · rcases fetch_credentials_events_kind _ _ _ _ _ _ _ h with h | h <;>
                    simp_all [fetchPhaseEvent]
                · simp_all
              · simp_all [c6_step1, c6_step2, c6_step4, hs1, hs2, hs4, hra]
              · simp_all
            · simp only [c6_step1, c6_step2, hs1, hs2, iff_true, and_self]
              apply complete_request_events_mono
              simp only [List.mem_append]
              left
              exact fetch_credentials_records_start _ _ _ _ _ _
            · intro iu' hh hne
              simp only [c6_step1, hs1, iff_true]
              apply complete_request_events_mono
              simp only [List.mem_append]
              left
              apply fetch_credentials_events_mono
              simp
            · intro h
              simp at h
            · intro iu' hh
              simp only [c6_step1, c6_step2, hs1, hs2, iff_true, and_self, true_and]
              apply complete_request_events_mono
              simp only [List.mem_append]
              right
              simp
          · -- realm fallback hit
            refine ⟨?_, ?_, ?_, ?_, ?_, ?_⟩
            · apply complete_request_events_mono
              simp only [List.mem_append]
              left
              apply fetch_credentials_events_mono
              simp
            · intro r hr
              rcases complete_request_events_kind _ _ _ _ _ _ hr with h | h | ⟨c', hc', h⟩
              · simp only [List.mem_append, List.mem_singleton] at h
                rcases h with h | h
                · rcases fetch_credentials_events_kind _ _ _ _ _ _ _ h with h | h <;>
                    simp_all [fetchPhaseEvent]
                · simp_all
              · simp_all [c6_step1, c6_step2, c6_step4, hs1, hs2, hs4]
              · simp_all
            · simp only [c6_step1, c6_step2, hs1, hs2, iff_true, and_self]
              apply complete_request_events_mono
              simp only [List.mem_append]
              left
              exact fetch_credentials_records_start _ _ _ _ _ _
            · intro iu' hh hne
              simp only [c6_step1, hs1, iff_true]
              apply complete_request_events_mono
              simp only [List.mem_append]
              left
              apply fetch_credentials_events_mono
              simp
            · intro h
              simp at h
            · intro iu' hh
              simp only [c6_step1, c6_step2, hs1, hs2, iff_true, and_self, true_and]
              apply complete_request_events_mono
              simp only [List.mem_append]
              right
              simp
        · -- fetch hit
          refine ⟨?_, ?_, ?_, ?_, ?_, ?_⟩
          · exact complete_request_events_mono _ _ _ _ _ _ (by
              apply fetch_credentials_events_mono
              simp)
          · intro r hr
            rcases complete_request_events_kind _ _ _ _ _ _ hr with h | h | ⟨c', hc', h⟩
            · rcases fetch_credentials_events_kind _ _ _ _ _ _ _ h with h | h <;>
                simp_all [fetchPhaseEvent]
            · simp_all [c6_step1, c6_step2, c6_step4, hs1, hs2]
            · simp_all
          · simp only [c6_step1, c6_step2, hs1, hs2, iff_true, and_self]
            exact complete_request_events_mono _ _ _ _ _ _
              (fetch_credentials_records_start _ _ _ _ _ _)
          · intro iu' hh hne
            simp only [c6_step1, hs1, iff_true]
            exact complete_request_events_mono _ _ _ _ _ _ (by
              apply fetch_credentials_events_mono
              simp)
          · intro h
            simp at h
          · intro iu' hh
            simp only [c6_step1, c6_step2, hs1, hs2]
            constructor
            · intro h
              rcases complete_request_events_kind _ _ _ _ _ _ h with h | h | ⟨c', hc', h⟩
              · rcases fetch_credentials_events_kind _ _ _ _ _ _ _ h with h | h <;>
                  simp_all [fetchPhaseEvent]
              · simp_all
              · simp_all
            · rintro ⟨_, _, h⟩
              simp at h
      · -- request-URL cache hit
        refine ⟨?_, ?_, ?_, ?_, ?_, ?_⟩
        · exact complete_request_events_mono _ _ _ _ _ _ (by simp)
        · intro r hr
          rcases complete_request_events_kind _ _ _ _ _ _ hr with h | h | ⟨c', hc', h⟩
          · simp_all
          · simp_all [c6_step1, c6_step2, c6_step4, hs1, hs2]
          · simp_all
        · simp only [c6_step1, c6_step2, hs1, hs2]
          constructor
          · intro h
            rcases complete_request_events_kind _ _ _ _ _ _ h with h | h | ⟨c', hc', h⟩ <;>
              simp_all
          · rintro ⟨_, h⟩
            simp at h
        · intro iu' hh hne
          simp only [c6_step1, hs1, iff_true]
          exact complete_request_events_mono _ _ _ _ _ _ (by simp)
        · intro h
          simp at h
        · intro iu' hh
          simp only [c6_step1, c6_step2, hs1, hs2]
          constructor
          · intro h
            rcases complete_request_events_kind _ _ _ _ _ _ h with h | h | ⟨c', hc', h⟩ <;>
              simp_all
          · rintro ⟨_, h, _⟩
            simp at h
    · -- index-URL cache hit (step 1)
      refine ⟨?_, ?_, ?_, ?_, ?_, ?_⟩
      · exact complete_request_events_mono _ _ _ _ _ _ (by simp)
      · intro r hr
        rcases complete_request_events_kind _ _ _ _ _ _ hr with h | h | ⟨c', hc', h⟩
        · simp_all
        · simp_all [c6_step1, c6_step2, c6_step4, hs1]
        · simp_all
      · simp only [c6_step1, hs1]
        constructor
        · intro h
          rcases complete_request_events_kind _ _ _ _ _ _ h with h | h | ⟨c', hc', h⟩ <;>
            simp_all
        · rintro ⟨h, _⟩
          simp at h
      · intro iu' hh hne
        injection hh with hh
        subst hh
        simp only [c6_step1, hs1]
        constructor
        · intro h
          rcases complete_request_events_kind _ _ _ _ _ _ h with h | h | ⟨c', hc', h⟩ <;>
            simp_all
        · intro h
          simp at h
      · intro h
        simp at h
      · intro iu' hh
        simp only [c6_step1, hs1]
        constructor
        · intro h
          rcases complete_request_events_kind _ _ _ _ _ _ h with h | h | ⟨c', hc', h⟩ <;>
            simp_all
        · rintro ⟨h, _⟩
          simp at h



/-- C6: for a request carrying a username but no password, the password
search of `complete_request_with_request_credentials` proceeds in exactly
the claimed order — (1) index-URL cache if an index is matched, else realm
cache; (2) request-URL cache; (3) the single-flight provider fetch; (4) the
realm cache when an index was matched — and the first source yielding
credentials is the one attached to the request that is sent (the request's
own credentials when all miss).  Concretely: the first lookup always runs,
the provider fetch runs exactly when (1) and (2) missed, the request-URL
lookup runs exactly when (1) missed, and the realm fallback runs exactly
when an index is known and (1)-(3) missed. -/
theorem username_only_password_lookup_order (env : Env) (rc : Credentials)
    (req : Request) (i : Option Url) (p : AuthPolicy)
    (hrc : rc.password = none) (hreqc : req.headerCreds = some rc) :
    ((match i with
      | some iu => Event.cacheGetUrl iu rc.username
      | none => Event.cacheGetRealm (env.realmOf req.url) rc.username) ∈
        (complete_request_with_request_credentials env St0 rc req i p).snd.events) ∧
    (∀ r, Event.httpSend r ∈
        (complete_request_with_request_credentials env St0 rc req i p).snd.events →
      r = authenticate ((c6_chain env rc req i p).getD rc) req) ∧
    (Event.fetchStart req.url (fetchKeyUsername (some rc)) ∈
        (complete_request_with_request_credentials env St0 rc req i p).snd.events ↔
      (c6_step1 env req i rc.username = none ∧ c6_step2 env req rc.username = none)) ∧
    (∀ iu, i = some iu → iu ≠ req.url →
      (Event.cacheGetUrl req.url rc.username ∈
          (complete_request_with_request_credentials env St0 rc req i p).snd.events ↔
        c6_step1 env req i rc.username = none)) ∧
    (i = none →
      (Event.cacheGetUrl req.url rc.username ∈
          (complete_request_with_request_credentials env St0 rc req i p).snd.events ↔
        c6_step1 env req i rc.username = none)) ∧
    (∀ iu, i = some iu →
      (Event.cacheGetRealm (env.realmOf req.url) rc.username ∈
          (complete_request_with_request_credentials env St0 rc req i p).snd.events ↔
        (c6_step1 env req i rc.username = none ∧ c6_step2 env req rc.username = none ∧
         c6_fetch env rc req i p = none))) :=
  by
  have h := crwrc_order_spec env rc req i p (c6_fetch env rc req i p) hrc hreqc
    (fun st' => fetch_credentials_fst env st' St0 (some rc) req.url i p)
  rcases i with _ | iu <;> simpa [c6_chain] using h



/-- Witness for C6 at a concrete input (index matched, index-URL cache
hit). -/
theorem username_only_password_lookup_order_witness :
    ((match (some "https://h/idx" : Option Url) with
      | some iu => Event.cacheGetUrl iu (some "u")
      | none => Event.cacheGetRealm (c5wEnv.realmOf "https://h/x") (some "u")) ∈
        (complete_request_with_request_credentials c5wEnv St0 ⟨some "u", none⟩
          ⟨"https://h/x", some ⟨some "u", none⟩, true⟩ (some "https://h/idx")
          AuthPolicy.auto).snd.events) ∧
    (∀ r, Event.httpSend r ∈
        (complete_request_with_request_credentials c5wEnv St0 ⟨some "u", none⟩
          ⟨"https://h/x", some ⟨some "u", none⟩, true⟩ (some "https://h/idx")
          AuthPolicy.auto).snd.events →
      r = authenticate
        ((c6_chain c5wEnv ⟨some "u", none⟩ ⟨"https://h/x", some ⟨some "u", none⟩, true⟩
          (some "https://h/idx") AuthPolicy.auto).getD ⟨some "u", none⟩)
        ⟨"https://h/x", some ⟨some "u", none⟩, true⟩) ∧
    (Event.fetchStart "https://h/x" (fetchKeyUsername (some ⟨some "u", none⟩)) ∈
        (complete_request_with_request_credentials c5wEnv St0 ⟨some "u", none⟩
          ⟨"https://h/x", some ⟨some "u", none⟩, true⟩ (some "https://h/idx")
          AuthPolicy.auto).snd.events ↔
      (c6_step1 c5wEnv ⟨"https://h/x", some ⟨some "u", none⟩, true⟩
          (some "https://h/idx") (some "u") = none ∧
       c6_step2 c5wEnv ⟨"https://h/x", some ⟨some "u", none⟩, true⟩ (some "u") = none)) ∧
    (∀ iu, (some "https://h/idx" : Option Url) = some iu → iu ≠ "https://h/x" →
      (Event.cacheGetUrl "https://h/x" (some "u") ∈
          (complete_request_with_request_credentials c5wEnv St0 ⟨some "u", none⟩
            ⟨"https://h/x", some ⟨some "u", none⟩, true⟩ (some "https://h/idx")
            AuthPolicy.auto).snd.events ↔
        c6_step1 c5wEnv ⟨"https://h/x", some ⟨some "u", none⟩, true⟩
          (some "https://h/idx") (some "u") = none)) ∧
    ((some "https://h/idx" : Option Url) = none →
      (Event.cacheGetUrl "https://h/x" (some "u") ∈
          (complete_request_with_request_credentials c5wEnv St0 ⟨some "u", none⟩
            ⟨"https://h/x", some ⟨some "u", none⟩, true⟩ (some "https://h/idx")
            AuthPolicy.auto).snd.events ↔
        c6_step1 c5wEnv ⟨"https://h/x", some ⟨some "u", none⟩, true⟩
          (some "https://h/idx") (some "u") = none)) ∧
    (∀ iu, (some "https://h/idx" : Option Url) = some iu →
      (Event.cacheGetRealm (c5wEnv.realmOf "https://h/x") (some "u") ∈
          (complete_request_with_request_credentials c5wEnv St0 ⟨some "u", none⟩
            ⟨"https://h/x", some ⟨some "u", none⟩, true⟩ (some "https://h/idx")
            AuthPolicy.auto).snd.events ↔
        (c6_step1 c5wEnv ⟨"https://h/x", some ⟨some "u", none⟩, true⟩
            (some "https://h/idx") (some "u") = none ∧
         c6_step2 c5wEnv ⟨"https://h/x", some ⟨some "u", none⟩, true⟩ (some "u") = none ∧
         c6_fetch c5wEnv ⟨some "u", none⟩ ⟨"https://h/x", some ⟨some "u", none⟩, true⟩
           (some "https://h/idx") AuthPolicy.auto = none))) :=
  username_only_password_lookup_order c5wEnv ⟨some "u", none⟩
    ⟨"https://h/x", some ⟨some "u", none⟩, true⟩ (some "https://h/idx")
    AuthPolicy.auto rfl rfl

/-! ### C9: the single-flight fetch coordinator.

Modelled from the spec: the `fetches` map of the credentials cache with its
`register`/`wait`/`done` operations lives in `cache.rs`, which is not among
the sources; §4.3 and §5 of the spec describe it: `register(key)` atomically
elects the first caller and returns `false` to everyone else, `done`
publishes the fetched value exactly once, waiters observe the published
value, and completion is sticky for the process lifetime.  We model the N
callers of `fetch_credentials` for one (FetchKey, Username) as tasks
stepped by an arbitrary interleaving. -/

/-- Modelled from the spec: the state of a single-flight slot. -/
inductive SFSlot where
  | empty
  | pending
  | done (r : Option Credentials)
  deriving DecidableEq, Repr

/-- Modelled from the spec: where one caller of `fetch_credentials` stands. -/
inductive SFPhase where
  | start
  | elected
  | waiting
  | finished (r : Option Credentials)
  deriving DecidableEq, Repr

/-- Modelled from the spec: the joint state of the slot and the N callers,
with a counter of provider-chain executions. -/
structure SFState (n : Nat) where
  slot : SFSlot
  tasks : Fin n → SFPhase
  chainRuns : Nat

/-- Modelled from the spec: one scheduler step of task `i`.  `res` is the
(deterministic) result of the provider chain.  A starting task registers:
it is elected if the slot is empty, waits if a fetch is pending, and takes
the stored value if one is published.  The elected task runs the provider
chain once and publishes via `done`.  A waiting task finishes once the
value is published. -/
def sfStep (res : Option Credentials) {n : Nat} (s : SFState n) (i : Fin n) :
    SFState n :=
  match s.tasks i with
  | SFPhase.start =>
    match s.slot with
    | SFSlot.empty =>
      { s with slot := SFSlot.pending, tasks := Function.update s.tasks i SFPhase.elected }
    | SFSlot.pending =>
      { s with tasks := Function.update s.tasks i SFPhase.waiting }
    | SFSlot.done r =>
      { s with tasks := Function.update s.tasks i (SFPhase.finished r) }
  | SFPhase.elected =>
    { s with slot := SFSlot.done res,
             tasks := Function.update s.tasks i (SFPhase.finished res),
             chainRuns := s.chainRuns + 1 }
  | SFPhase.waiting =>
    match s.slot with
    | SFSlot.done r => { s with tasks := Function.update s.tasks i (SFPhase.finished r) }
    | _ => s
  | SFPhase.finished _ => s

/-- Modelled from the spec: all callers at `register`, slot unclaimed. -/
def sfInit (n : Nat) : SFState n := ⟨SFSlot.empty, fun _ => SFPhase.start, 0⟩

/-- Modelled from the spec: run an arbitrary interleaving. -/
def sfRun (res : Option Credentials) {n : Nat} (sched : List (Fin n)) : SFState n :=
  sched.foldl (sfStep res) (sfInit n)

/-- The single-flight invariant tying the slot to the task phases and the
number of chain executions. -/
def sfInv (res : Option Credentials) {n : Nat} (s : SFState n) : Prop :=
  match s.slot with
  | SFSlot.empty => s.chainRuns = 0 ∧ ∀ i, s.tasks i = SFPhase.start
  | SFSlot.pending =>
      s.chainRuns = 0 ∧
      ∃ j, s.tasks j = SFPhase.elected ∧
        ∀ i, i ≠ j → (s.tasks i = SFPhase.start ∨ s.tasks i = SFPhase.waiting)
  | SFSlot.done r =>
      r = res ∧ s.chainRuns = 1 ∧
      ∀ i, s.tasks i = SFPhase.start ∨ s.tasks i = SFPhase.waiting ∨
        s.tasks i = SFPhase.finished res

theorem sfInv_init (res : Option Credentials) (n : Nat) : sfInv res (sfInit n) := by
  simp [sfInv, sfInit]

theorem sfInv_step (res : Option Credentials) {n : Nat} (s : SFState n) (i : Fin n)
    (h : sfInv res s) : sfInv res (sfStep res s i) := by
  unfold sfStep
  rcases hti : s.tasks i with _ | _ | _ | r
  all_goals rcases hsl : s.slot with _ | _ | r'
  all_goals simp only [sfInv, hsl] at h
  all_goals simp only [sfInv]
  case start.empty =>
    refine ⟨h.1, i, by simp, ?_⟩
    intro k hk
    rw [Function.update_noteq hk]
    exact Or.inl (h.2 k)
  case start.pending =>
    obtain ⟨hc, j, hj, hothers⟩ := h
    have hij : i ≠ j := fun hh => by rw [hh, hj] at hti; cases hti
    refine ⟨hc, j, ?_, ?_⟩
    · rw [Function.update_noteq (Ne.symm hij)]
      exact hj
    · intro k hk
      by_cases hki : k = i
      · subst hki
        rw [Function.update_same]
        exact Or.inr rfl
      · rw [Function.update_noteq hki]
        exact hothers k hk
  case start.done =>
    obtain ⟨hr, hc, hall⟩ := h
    subst hr
    refine ⟨rfl, hc, ?_⟩
    intro k
    by_cases hki : k = i
    · subst hki
      rw [Function.update_same]
      exact Or.inr (Or.inr rfl)
    · rw [Function.update_noteq hki]
      exact hall k
  case elected.empty =>
    rw [h.2 i] at hti
    cases hti
  case elected.pending =>
    obtain ⟨hc, j, hj, hothers⟩ := h
    have hij : i = j := by
      by_contra hne
      rcases hothers i hne with hh | hh <;> rw [hh] at hti <;> cases hti
    subst hij
    refine ⟨trivial, by rw [hc], ?_⟩
    intro k
    by_cases hki : k = i
    · subst hki
      rw [Function.update_same]
      exact Or.inr (Or.inr rfl)
    · rw [Function.update_noteq hki]
      rcases hothers k hki with hh | hh
      · exact Or.inl hh
      · exact Or.inr (Or.inl hh)
  case elected.done =>
    rcases h.2.2 i with hh | hh | hh <;> rw [hh] at hti <;> cases hti
  case waiting.empty =>
    rw [h.2 i] at hti
    cases hti
  case waiting.pending =>
    simp only [sfInv, hsl]
    exact h
  case waiting.done =>
    obtain ⟨hr, hc, hall⟩ := h
    subst hr
    refine ⟨rfl, hc, ?_⟩
    intro k
    by_cases hki : k = i
    · subst hki
      rw [Function.update_same]
      exact Or.inr (Or.inr rfl)
    · rw [Function.update_noteq hki]
      exact hall k
  case finished.empty =>
    simp only [sfInv, hsl]
    exact h
  case finished.pending =>
    simp only [sfInv, hsl]
    exact h
  case finished.done =>
    simp only [sfInv, hsl]
    exact h

theorem sfInv_run (res : Option Credentials) {n : Nat} (sched : List (Fin n)) :
    sfInv res (sfRun res sched) := by
  have : ∀ s, sfInv res s → sfInv res (sched.foldl (sfStep res) s) := by
    induction sched with
    | nil => exact fun s h => h
    | cons a t ih => exact fun s h => ih _ (sfInv_step res s a h)
  exact this _ (sfInv_init res n)



/-- C9: for any number of concurrent callers of the single-flight fetch
with an equal (FetchKey, Username) key and any scheduling, at most one
provider chain runs; every caller that finishes observes the elected
caller's published result; and if any caller finished, exactly one provider
chain has run — later callers (scheduled after `done`) take the stored
result without re-running the chain. -/
theorem single_flight_exactly_once (res : Option Credentials) {n : Nat}
    (sched : List (Fin n)) :
    (sfRun res sched).chainRuns ≤ 1 ∧
    (∀ i r, (sfRun res sched).tasks i = SFPhase.finished r → r = res) ∧
    ((∃ i r, (sfRun res sched).tasks i = SFPhase.finished r) →
      (sfRun res sched).chainRuns = 1) := by
  have h := sfInv_run res sched
  rcases hsl : (sfRun res sched).slot with _ | _ | r' <;>
    simp only [sfInv, hsl] at h
  · refine ⟨by rw [h.1]; omega, ?_, ?_⟩
    · intro i r hir
      rw [h.2 i] at hir
      cases hir
    · rintro ⟨i, r, hir⟩
      rw [h.2 i] at hir
      cases hir
  · obtain ⟨hc, j, hj, hothers⟩ := h
    refine ⟨by rw [hc]; omega, ?_, ?_⟩
    · intro i r hir
      by_cases hij : i = j
      · subst hij
        rw [hj] at hir
        cases hir
      · rcases hothers i hij with hh | hh <;> rw [hh] at hir <;> cases hir
    · rintro ⟨i, r, hir⟩
      by_cases hij : i = j
      · subst hij
        rw [hj] at hir
        cases hir
      · rcases hothers i hij with hh | hh <;> rw [hh] at hir <;> cases hir
  · obtain ⟨hr, hc, hall⟩ := h
    refine ⟨by rw [hc], ?_, fun _ => hc⟩
    intro i r hir
    rcases hall i with hh | hh | hh <;> rw [hh] at hir
    · cases hir
    · cases hir
    · cases hir
      rfl

def sfWRes : Option Credentials := some ⟨some "u", some "p"⟩

def sfWSched : List (Fin 3) := [0, 1, 2, 0, 1, 2]

/-- Witness for C9 at a concrete input: three callers, one interleaving;
the chain runs exactly once and caller 0 finishes with the published
result. -/
theorem single_flight_exactly_once_witness :
    (sfRun sfWRes sfWSched).chainRuns ≤ 1 ∧
    (sfRun sfWRes sfWSched).chainRuns = 1 :=
  ⟨(single_flight_exactly_once sfWRes sfWSched).1,
   (single_flight_exactly_once sfWRes sfWSched).2.2 ⟨0, sfWRes, by decide⟩⟩

end UvAuth
